import Mathlib

/-!
Verification of the lazarette replicated key-value cache.

The development shallowly embeds the repository's code:
- `MemStore` and its operations embed `src/store/memstore/mem.go`.
- The RPC service surface embeds `src/lazarette/lazarette.proto`.
- The HTTP route table embeds `serveHTTP` from `src/server` (the echo
  server registers its routes there).
- The Cache Engine and the Subscription Fan-out are not present under
  `src/` (only their tests and callers are); those definitions are
  modelled from the specification and say so in their doc comments.

Byte slices are modelled as `List Nat`, timestamps as `Nat` (the spec
only requires a totally ordered wall-clock instant), errors as
`Option String` (`none` is Go's `nil` error).
-/

namespace Lazarette

/-- Opaque byte sequence, modelling a Go `[]byte`. -/
abbrev Bytes := List Nat

/-! ## Store: `src/store/memstore/mem.go`

The Go `memstore` holds `m map[string][]byte`; we model the map as a
function `String → Option Bytes` (`none` = key absent, which in Go makes
`Get` return a `nil` slice). The `sync.RWMutex` only serializes access
and has no sequential meaning, so it is not part of the state. -/

/-- State of the in-memory store: the contents of the Go map `m`. -/
def MemStore := String → Option Bytes

/-- Result of `memstore.Get`: the value (Go returns a `nil` slice, here
`none`, when the key is absent, and a copy of the data otherwise), the
returned error, and the store state after the call. -/
structure MemGet where
  val : Option Bytes
  err : Option String
  state : MemStore

/-- Result of a mutating store call (`Put`/`Clean`): the returned error
and the store state after the call. -/
structure MemMut where
  err : Option String
  state : MemStore

/-- Store made by `NewStore`: an empty map. -/
def MemStore.empty : MemStore := fun _ => none

/-- Embeds `memstore.Get` (mem.go lines 22-33): reads `s.m[string(key)]`
under `RLock`, copies the data if present, and returns `val, nil`. The
map is never written, so the resulting state is `s` itself. -/
def MemStore.get (s : MemStore) (key : String) : MemGet :=
  { val := s key, err := none, state := s }

/-- Embeds `memstore.Put` (mem.go lines 35-42): `s.m[string(key)] = val`
under `Lock`, then `return nil`. -/
def MemStore.put (s : MemStore) (key : String) (val : Bytes) : MemMut :=
  { err := none, state := fun k => if k = key then some val else s k }

/-- Embeds `memstore.Clean` (mem.go lines 44-51): replaces `s.m` with a
fresh empty map and returns `nil`. -/
def MemStore.clean (_ : MemStore) : MemMut :=
  { err := none, state := fun _ => none }

/-- Embeds `memstore.Close` (mem.go lines 53-56): does nothing and
returns `nil`. -/
def MemStore.close (_ : MemStore) : Option String := none

/-! ## Cache Engine

The engine code (`lazarette.Cache`) is not under `src/`; only its tests
and the transport scaffolding that calls it are. It is therefore
modelled from the specification, §4.1. -/

/-- Modelled from the spec: the Cache Engine state (the engine code of
package `lazarette` is missing from `src/`). It wraps the Store contents
— per §3 an Entry associates a key with a Value, an immutable pair of
data bytes and a timestamp — mirrors them in the lightweight in-engine
key → timestamp index of §4.1, and records, in acceptance order, every
accepted write handed to the Subscription Fan-out for broadcast. -/
structure Engine where
  store : String → Option (Nat × Bytes)
  index : String → Option Nat
  broadcasts : List (String × Nat × Bytes)

/-- Engine over an empty store: no entries, no timestamps, nothing yet
handed to the fan-out. -/
def Engine.empty : Engine :=
  { store := fun _ => none, index := fun _ => none, broadcasts := [] }

/-- Modelled from the spec: `Set(key, value timestamped) → applied`
(§4.1, the engine code is missing from `src/`). Look up the stored
timestamp for `key` (absent = beginning of time); if the incoming
timestamp is strictly newer, or no entry exists, persist to the Store,
update the timestamp index, hand the accepted write to the fan-out and
return `applied = true`; otherwise — ties included — discard silently
and return `applied = false`. -/
def Engine.set (e : Engine) (key : String) (ts : Nat) (data : Bytes) : Bool × Engine :=
  let accept : Engine :=
    { store := fun k => if k = key then some (ts, data) else e.store k
      index := fun k => if k = key then some ts else e.index k
      broadcasts := e.broadcasts ++ [(key, ts, data)] }
  match e.index key with
  | none => (true, accept)
  | some cur => if cur < ts then (true, accept) else (false, e)

/-- Applies a sequence of `Set` calls, in arrival order; each list item
is one call's `(key, timestamp, data)`. -/
def Engine.setList (e : Engine) (calls : List (String × Nat × Bytes)) : Engine :=
  calls.foldl (fun acc c => (acc.set c.1 c.2.1 c.2.2).2) e

/-! ## Subscription Fan-out

The fan-out code is also not under `src/`; delivery is modelled from the
specification, §4.2 and §8. -/

/-- Modelled from the spec: the prefix-match rule of §3 — a watcher
registered with prefix `P` matches every key `K` such that `K` starts
with `P`. Strings are compared by their character lists. -/
def prefMatches (p k : String) : Bool :=
  p.data.isPrefixOf k.data

/-- Modelled from the spec: a watcher (§3) — a registered key prefix and
the queue of write events delivered to it, oldest first. The bounded
queue, cancellation signal, and sink are concurrency apparatus outside
this sequential model. -/
structure Watcher where
  pref : String
  queue : List (String × Nat × Bytes)
  deriving DecidableEq

/-- Modelled from the spec: delivery of one accepted write to one
watcher — the event is appended to the watcher's queue exactly when the
watcher's prefix matches the key (§4.2). -/
def deliverTo (key : String) (ts : Nat) (data : Bytes) (w : Watcher) : Watcher :=
  if prefMatches w.pref key then
    { w with queue := w.queue ++ [(key, ts, data)] }
  else
    w

/-- Modelled from the spec: broadcast of one accepted write — it is
enqueued for every matching watcher independently (§4.2). -/
def broadcast (ws : List Watcher) (key : String) (ts : Nat) (data : Bytes) : List Watcher :=
  ws.map (deliverTo key ts data)

/-! ## RPC service surface: `src/lazarette/lazarette.proto`

The proto file declares `service Lazarette` with rpcs `Get`, `Set` and
`Subscribe` over messages `Key`, `Value` and `KeyValue`. The test
`TestGRPCServer` additionally calls `client2.ReplicateWith` with a
`Replication` message (`RemoteAddr`, `Prefix` fields); that rpc and its
message are absent from the proto fragment under `src/` (the spec's §9
notes exactly this), so they are modelled from the spec. -/

/-- Shape of an rpc request message. -/
inductive ReqShape where
  | key
  | keyValue
  | replication
  deriving DecidableEq

/-- Shape of an rpc response: a single value, an empty ack (which, like
every rpc, may instead surface an error), or a stream of key-values. -/
inductive RespShape where
  | value
  | emptyAck
  | streamKeyValue
  deriving DecidableEq

/-- One rpc of the service: its name and its request/response shapes. -/
structure Rpc where
  name : String
  req : ReqShape
  resp : RespShape
  deriving DecidableEq

/-- Embeds the `service Lazarette` block of `lazarette.proto` (lines
7-12): the client-facing data-plane calls. -/
def dataPlane : List Rpc :=
  [ { name := "Get", req := ReqShape.key, resp := RespShape.value }
  , { name := "Set", req := ReqShape.keyValue, resp := RespShape.emptyAck }
  , { name := "Subscribe", req := ReqShape.key, resp := RespShape.streamKeyValue } ]

/-- Modelled from the spec: the `ReplicateWith(remoteAddress, prefix)`
control-plane rpc of §6, missing from the proto fragment under `src/`
and inferred there from the test's client usage (`server_test.go` lines
133-141): request carries a remote address and a prefix, response is an
empty ack or an error. -/
def replicateWith : Rpc :=
  { name := "ReplicateWith", req := ReqShape.replication, resp := RespShape.emptyAck }

/-- The full rpc surface of a lazarette server: the data-plane calls of
the proto plus the `ReplicateWith` control-plane call. -/
def serviceSurface : List Rpc :=
  dataPlane ++ [replicateWith]

/-! ## HTTP surface: `serveHTTP` in `src/server`

`serveHTTP` (server_test.go lines 299-315, the appended `server.go`)
creates the echo instance and registers its routes. The only route it
registers is `GET "/"` answering `200 "hello!"`; the comment above it
reads `TODO add endpoints here`. A request matching no registered route
gets echo's default `404` with body `"Not Found"` and no extra
headers. -/

/-- HTTP request method, as far as the repository uses them. -/
inductive Method where
  | GET
  | PUT
  deriving DecidableEq

/-- An HTTP response: status code, body, and response headers as
name/value pairs. -/
structure HttpResp where
  status : Nat
  body : String
  headers : List (String × String)
  deriving DecidableEq

/-- Embeds the route table built by `serveHTTP`: only `GET "/"` is
registered (`TODO add endpoints here`). -/
def httpRoutes : List (Method × String) :=
  [(Method.GET, "/")]

/-- Embeds the HTTP serving behaviour of `serveHTTP`: the one registered
route answers `200 "hello!"` with no extra headers; every other
method/path pair falls through to echo's `404 "Not Found"`. -/
def serveHTTPHandle (m : Method) (path : String) : HttpResp :=
  if (m, path) ∈ httpRoutes then
    { status := 200, body := "hello!", headers := [] }
  else
    { status := 404, body := "Not Found", headers := [] }

/-! ## Theorems about the store and the transport surfaces -/

/-- C8: Clean erases all entries — after `Clean()` returns its `nil`
error, `Get` on every key finds no entry (a `nil` slice), and the map
holds nothing; on the in-memory store `Clean` always returns a `nil`
error. -/
theorem clean_erases_all (s : MemStore) (k : String) :
    (s.clean).err = none
    ∧ (((s.clean).state).get k).val = none
    ∧ ((s.clean).state) k = none :=
  ⟨rfl, rfl, rfl⟩

/-- C9: Get does not mutate state — after `Get(k)` the store state is
unchanged, so any subsequent `Get(k')` returns exactly what it would
have returned before, and every stored entry is intact. -/
theorem get_does_not_mutate (s : MemStore) (k k' : String) :
    (s.get k).state = s
    ∧ ((s.get k).state).get k' = s.get k'
    ∧ ((s.get k).state) k' = s k' :=
  ⟨rfl, rfl, rfl⟩

/-- C10: every operation of the in-memory store (`Get`, `Put`, `Clean`,
`Close`) returns a `nil` error in all cases, and `Get` on an absent key
returns a `nil` byte slice with a `nil` error, so absence is not an
error at the store level. -/
theorem memstore_ops_return_nil_error (s : MemStore) (k : String) (v : Bytes) :
    (s.get k).err = none
    ∧ (s.put k v).err = none
    ∧ (s.clean).err = none
    ∧ s.close = none
    ∧ (s k = none → (s.get k).val = none ∧ (s.get k).err = none) :=
  ⟨rfl, rfl, rfl, rfl, fun h => ⟨h, rfl⟩⟩

/-- Witness for C10 at a concrete store and key: the empty store has no
entry at `"a"`, and all operations there return `nil` errors. -/
theorem memstore_ops_return_nil_error_witness :
    (MemStore.empty.get "a").err = none
    ∧ (MemStore.empty.put "a" [0]).err = none
    ∧ (MemStore.empty.clean).err = none
    ∧ MemStore.empty.close = none
    ∧ (MemStore.empty "a" = none →
        (MemStore.empty.get "a").val = none ∧ (MemStore.empty.get "a").err = none) :=
  memstore_ops_return_nil_error MemStore.empty "a" [0]

/-- C5: the rpc surface includes the control-plane call
`ReplicateWith(remoteAddress, prefix)` returning an empty ack or an
error, alongside — and distinct from — the data-plane calls `Get`, `Set`
and `Subscribe` of the proto. -/
theorem replicateWith_in_service_surface :
    replicateWith ∈ serviceSurface
    ∧ replicateWith.name = "ReplicateWith"
    ∧ replicateWith.req = ReqShape.replication
    ∧ replicateWith.resp = RespShape.emptyAck
    ∧ replicateWith ∉ dataPlane
    ∧ ({ name := "Get", req := ReqShape.key, resp := RespShape.value } : Rpc) ∈ serviceSurface
    ∧ ({ name := "Set", req := ReqShape.keyValue, resp := RespShape.emptyAck } : Rpc) ∈ serviceSurface
    ∧ ({ name := "Subscribe", req := ReqShape.key, resp := RespShape.streamKeyValue } : Rpc) ∈ serviceSurface := by
  decide

/-- C6 (failing input): `serveHTTP` registers no `PUT /cache/:key`
route — its route table is `GET "/"` plus `TODO add endpoints here` — so
the request `PUT /cache/ITB-1101-CP1` sent by `TestHttpServer` falls
through to echo's `404 "Not Found"` instead of answering
`"updated ITB-1101-CP1"`. -/
theorem put_cache_route_missing :
    serveHTTPHandle Method.PUT "/cache/ITB-1101-CP1"
      = { status := 404, body := "Not Found", headers := [] }
    ∧ (serveHTTPHandle Method.PUT "/cache/ITB-1101-CP1").body ≠ "updated ITB-1101-CP1"
    ∧ (Method.PUT, "/cache/ITB-1101-CP1") ∉ httpRoutes := by
  decide

/-- C7 (failing input): `serveHTTP` registers no `GET /cache/:key`
route either, so `GET /cache/ITB-1101-CP1` gets echo's `404` with no
`Last-Modified` header at all, rather than the stored value with its
timestamp. -/
theorem get_cache_route_missing :
    (serveHTTPHandle Method.GET "/cache/ITB-1101-CP1").status = 404
    ∧ ((serveHTTPHandle Method.GET "/cache/ITB-1101-CP1").headers).lookup "Last-Modified" = none
    ∧ (Method.GET, "/cache/ITB-1101-CP1") ∉ httpRoutes := by
  decide

/-! ## Theorems about the Cache Engine conflict rule -/

/-- Rejected calls leave the engine untouched: when the stored timestamp
for `k` already equals the incoming one, `Set` is a no-op returning
`applied = false`. -/
lemma set_at_stored_ts (e : Engine) (k : String) (t : Nat) (d : Bytes)
    (h : e.index k = some t) : e.set k t d = (false, e) := by
  simp [Engine.set, h]

/-- An accepted `Set` leaves exactly the incoming timestamp in the
index. -/
lemma set_accepted_index (e : Engine) (k : String) (t : Nat) (d : Bytes)
    (h : (e.set k t d).1 = true) : ((e.set k t d).2).index k = some t := by
  rcases hidx : e.index k with _ | m
  · simp [Engine.set, hidx]
  · by_cases hlt : m < t
    · simp [Engine.set, hidx, hlt]
    · simp [Engine.set, hidx, hlt] at h

/-- C1: `Set(key, value)` applies the write — persists the timestamped
value to the Store, updates the timestamp index, hands the pair to the
fan-out — and returns `applied = true`, exactly when the incoming
timestamp is strictly newer than the stored one or no entry exists;
otherwise (ties included) the engine state is left entirely unchanged
and `applied = false` is returned. -/
theorem set_applied_iff_newer (e : Engine) (k : String) (t : Nat) (d : Bytes) :
    ((e.set k t d).1 = true ↔ e.index k = none ∨ ∃ m, e.index k = some m ∧ m < t)
    ∧ ((e.set k t d).1 = true →
        ((e.set k t d).2).store k = some (t, d)
        ∧ ((e.set k t d).2).index k = some t
        ∧ ((e.set k t d).2).broadcasts = e.broadcasts ++ [(k, t, d)])
    ∧ ((e.set k t d).1 = false → (e.set k t d).2 = e) := by
  rcases h : e.index k with _ | m
  · simp [Engine.set, h]
  · by_cases hlt : m < t <;> simp [Engine.set, h, hlt]

/-- Witness for C1 at a concrete engine: on the empty engine, setting
key `"a"` at timestamp `3` is applied, persisted, indexed and handed to
the fan-out. -/
theorem set_applied_iff_newer_witness :
    ((Engine.empty.set "a" 3 [7]).1 = true
      ↔ Engine.empty.index "a" = none ∨ ∃ m, Engine.empty.index "a" = some m ∧ m < 3)
    ∧ ((Engine.empty.set "a" 3 [7]).1 = true →
        ((Engine.empty.set "a" 3 [7]).2).store "a" = some (3, [7])
        ∧ ((Engine.empty.set "a" 3 [7]).2).index "a" = some 3
        ∧ ((Engine.empty.set "a" 3 [7]).2).broadcasts
            = Engine.empty.broadcasts ++ [("a", 3, [7])])
    ∧ ((Engine.empty.set "a" 3 [7]).1 = false → (Engine.empty.set "a" 3 [7]).2 = Engine.empty) :=
  set_applied_iff_newer Engine.empty "a" 3 [7]

/-- C3: `Set` is idempotent — once a call `(k, t, d)` has been accepted,
re-applying the identical call any further number of times leaves the
stored value for that key unchanged. -/
theorem set_idempotent (e : Engine) (k : String) (t : Nat) (d : Bytes) (n : Nat)
    (h : (e.set k t d).1 = true) :
    ((fun s => (s.set k t d).2)^[n] ((e.set k t d).2)).store k
      = ((e.set k t d).2).store k := by
  have hfix : (fun s => (s.set k t d).2) ((e.set k t d).2) = (e.set k t d).2 := by
    have := set_at_stored_ts ((e.set k t d).2) k t d (set_accepted_index e k t d h)
    simp [this]
  rw [Function.iterate_fixed hfix n]

/-- Witness for C3: on the empty engine the first `Set` of `"a"` is
accepted, and three repetitions leave the stored value alone. -/
theorem set_idempotent_witness :
    (Engine.empty.set "a" 1 [2]).1 = true
    ∧ ((fun s => (s.set "a" 1 [2]).2)^[3] ((Engine.empty.set "a" 1 [2]).2)).store "a"
        = ((Engine.empty.set "a" 1 [2]).2).store "a" :=
  ⟨rfl, set_idempotent Engine.empty "a" 1 [2] 3 rfl⟩

/-- Effect of one `Set` call on the stored timestamp: absent becomes the
incoming timestamp, present becomes the larger of the two. -/
def bump (o : Option Nat) (t : Nat) : Nat :=
  match o with
  | none => t
  | some m => Nat.max m t

/-- Timestamps of the calls issued for key `k` within a call sequence,
in arrival order. -/
def timesFor (k : String) (calls : List (String × Nat × Bytes)) : List Nat :=
  (calls.filter fun c => decide (c.1 = k)).map fun c => c.2.1

/-- Unfolding lemma for `setList` on a cons cell. -/
lemma setList_cons (e : Engine) (c : String × Nat × Bytes)
    (cs : List (String × Nat × Bytes)) :
    e.setList (c :: cs) = ((e.set c.1 c.2.1 c.2.2).2).setList cs := rfl

/-- One `Set` call bumps the stored timestamp of its own key and leaves
every other key's timestamp alone. -/
lemma set_index_eq (e : Engine) (key k : String) (t : Nat) (d : Bytes) :
    ((e.set key t d).2).index k =
      if k = key then some (bump (e.index k) t) else e.index k := by
  rcases h : e.index key with _ | m
  · by_cases hk : k = key
    · subst hk
      simp [Engine.set, h, bump]
    · simp [Engine.set, h, hk]
  · by_cases hlt : m < t
    · by_cases hk : k = key
      · subst hk
        simp [Engine.set, h, hlt, bump, Nat.max_eq_right (Nat.le_of_lt hlt)]
      · simp [Engine.set, h, hlt, hk]
    · by_cases hk : k = key
      · subst hk
        simp [Engine.set, h, hlt, bump, Nat.max_eq_left (Nat.le_of_not_lt hlt)]
      · simp [Engine.set, h, hlt, hk]

/-- The stored timestamp after a whole call sequence is the fold of
`bump` over the timestamps issued for that key. -/
lemma setList_index_eq (calls : List (String × Nat × Bytes)) (e : Engine) (k : String) :
    ((e.setList calls).index k)
      = (timesFor k calls).foldl (fun o t => some (bump o t)) (e.index k) := by
  induction calls generalizing e with
  | nil => rfl
  | cons c cs ih =>
      rw [setList_cons, ih]
      by_cases hk : c.1 = k
      · rw [set_index_eq, if_pos hk.symm]
        simp [timesFor, List.filter_cons, hk]
      · rw [set_index_eq, if_neg (fun hc => hk hc.symm)]
        simp [timesFor, List.filter_cons, hk]

/-- Folding `bump` from a present timestamp is folding `Nat.max`. -/
lemma foldl_bump_some (l : List Nat) (m : Nat) :
    l.foldl (fun o t => some (bump o t)) (some m) = some (l.foldl Nat.max m) := by
  induction l generalizing m with
  | nil => rfl
  | cons t ts ih =>
      rw [List.foldl_cons, List.foldl_cons]
      exact ih (Nat.max m t)

/-- The seed is below a `Nat.max` fold. -/
lemma le_foldl_max (l : List Nat) (m : Nat) : m ≤ l.foldl Nat.max m := by
  induction l generalizing m with
  | nil => exact Nat.le_refl m
  | cons t ts ih => exact Nat.le_trans (Nat.le_max_left m t) (ih (Nat.max m t))

/-- Every element is below a `Nat.max` fold over its list. -/
lemma mem_le_foldl_max (l : List Nat) (m t : Nat) (ht : t ∈ l) :
    t ≤ l.foldl Nat.max m := by
  induction l generalizing m with
  | nil => cases ht
  | cons a as ih =>
      rcases List.mem_cons.mp ht with h | h
      · subst h
        exact Nat.le_trans (Nat.le_max_right m t) (le_foldl_max as (Nat.max m t))
      · exact ih (Nat.max m a) h

/-- A `Nat.max` fold is either its seed or one of the elements. -/
lemma foldl_max_mem (l : List Nat) (m : Nat) :
    l.foldl Nat.max m = m ∨ l.foldl Nat.max m ∈ l := by
  induction l generalizing m with
  | nil => exact Or.inl rfl
  | cons t ts ih =>
      rcases ih (Nat.max m t) with h | h
      · rcases Nat.le_total m t with hmt | htm
        · right
          have hmax : Nat.max m t = t := Nat.max_eq_right hmt
          rw [List.foldl_cons, h, hmax]
          exact List.mem_cons_self t ts
        · left
          have hmax : Nat.max m t = m := Nat.max_eq_left htm
          rw [List.foldl_cons, h, hmax]
      · right
        exact List.mem_cons_of_mem t h

/-- C2: monotonicity — for a fixed key with no prior entry, after any
finite sequence of `Set` calls in any arrival order, the timestamp
stored for that key is the maximum timestamp among all the calls issued
for that key in the sequence. -/
theorem set_timestamp_monotonic (e : Engine) (k : String)
    (calls : List (String × Nat × Bytes))
    (h0 : e.index k = none) (h1 : timesFor k calls ≠ []) :
    ∃ m, ((e.setList calls).index k) = some m
      ∧ m ∈ timesFor k calls
      ∧ ∀ t ∈ timesFor k calls, t ≤ m := by
  rcases hl : timesFor k calls with _ | ⟨t, ts⟩
  · exact absurd hl h1
  · refine ⟨ts.foldl Nat.max t, ?_, ?_, ?_⟩
    · rw [setList_index_eq, h0, hl, List.foldl_cons]
      exact foldl_bump_some ts t
    · rcases foldl_max_mem ts t with h | h
      · rw [h]
        exact List.mem_cons_self t ts
      · exact List.mem_cons_of_mem t h
    · intro x hx
      rcases List.mem_cons.mp hx with h | h
      · subst h
        exact le_foldl_max ts x
      · exact mem_le_foldl_max ts t x h

/-- Concrete call sequence used by the C2 witness: three calls for key
`"a"` (timestamps 2, 5, 3) interleaved with one for key `"b"`. -/
def demoCalls : List (String × Nat × Bytes) :=
  [("a", 2, [0]), ("b", 9, [1]), ("a", 5, [2]), ("a", 3, [3])]

/-- Witness for C2: on the empty engine, after `demoCalls` the stored
timestamp for `"a"` is the maximum (5) of the timestamps issued for
`"a"`. -/
theorem set_timestamp_monotonic_witness :
    Engine.empty.index "a" = none
    ∧ timesFor "a" demoCalls ≠ []
    ∧ ∃ m, ((Engine.empty.setList demoCalls).index "a") = some m
        ∧ m ∈ timesFor "a" demoCalls
        ∧ ∀ t ∈ timesFor "a" demoCalls, t ≤ m :=
  ⟨rfl, by decide, set_timestamp_monotonic Engine.empty "a" demoCalls rfl (by decide)⟩

/-! ## Theorems about the Subscription Fan-out -/

/-- The executable matcher agrees with the abstract "K starts with P"
relation on character lists. -/
lemma prefMatches_iff (p k : String) :
    prefMatches p k = true ↔ p.data <+: k.data :=
  List.isPrefixOf_iff_prefix

/-- C4: prefix correctness — a registered watcher receives a broadcast
write for key `K` (the event is appended to its queue) if and only if
`K` starts with the watcher's prefix, and a watcher registered with the
empty prefix receives every write. -/
theorem watcher_prefix_correct (ws : List Watcher) (w : Watcher) (k : String)
    (t : Nat) (d : Bytes) (hw : w ∈ ws) :
    deliverTo k t d w ∈ broadcast ws k t d
    ∧ ((deliverTo k t d w).queue = w.queue ++ [(k, t, d)] ↔ w.pref.data <+: k.data)
    ∧ (¬ w.pref.data <+: k.data → (deliverTo k t d w).queue = w.queue)
    ∧ (w.pref = "" → (deliverTo k t d w).queue = w.queue ++ [(k, t, d)]) := by
  have hdel : ∀ b : Bool, prefMatches w.pref k = b →
      (deliverTo k t d w).queue = if b then w.queue ++ [(k, t, d)] else w.queue := by
    intro b hb
    cases b <;> simp [deliverTo, hb]
  refine ⟨List.mem_map_of_mem _ hw, ?_, ?_, ?_⟩
  · by_cases hp : w.pref.data <+: k.data
    · rw [hdel true ((prefMatches_iff _ _).mpr hp)]
      simp [hp]
    · have hb : prefMatches w.pref k = false := by
        rcases Bool.eq_false_or_eq_true (prefMatches w.pref k) with h | h
        · exact absurd ((prefMatches_iff _ _).mp h) hp
        · exact h
      rw [hdel false hb]
      simp [hp]
  · intro hp
    have hb : prefMatches w.pref k = false := by
      rcases Bool.eq_false_or_eq_true (prefMatches w.pref k) with h | h
      · exact absurd ((prefMatches_iff _ _).mp h) hp
      · exact h
    exact hdel false hb
  · intro hp
    have hb : prefMatches w.pref k = true := by
      rw [hp]
      exact (prefMatches_iff "" k).mpr (List.nil_prefix)
    exact hdel true hb

/-- Witness for C4: the watcher registered with prefix `"ab"` is among
the registered watchers and receives the broadcast write for key
`"abc"`, which starts with `"ab"`. -/
theorem watcher_prefix_correct_witness :
    deliverTo "abc" 1 [0] { pref := "ab", queue := [] }
        ∈ broadcast [{ pref := "ab", queue := [] }] "abc" 1 [0]
    ∧ ((deliverTo "abc" 1 [0] { pref := "ab", queue := [] }).queue
          = [] ++ [("abc", 1, [0])]
        ↔ ("ab" : String).data <+: ("abc" : String).data)
    ∧ (¬ ("ab" : String).data <+: ("abc" : String).data →
        (deliverTo "abc" 1 [0] { pref := "ab", queue := [] }).queue = [])
    ∧ (("ab" : String) = "" →
        (deliverTo "abc" 1 [0] { pref := "ab", queue := [] }).queue
          = [] ++ [("abc", 1, [0])]) :=
  watcher_prefix_correct [{ pref := "ab", queue := [] }] { pref := "ab", queue := [] }
    "abc" 1 [0] (List.mem_singleton.mpr rfl)

end Lazarette
